import Mathlib

/-!
Verification development for the QuestradeCustomWrapper repository.

The development shallowly embeds the three core modules:
  - QuestradeAPI/RateLimiter.py  (class RateLimiter, enum ApiCategory)
  - QuestradeAPI/CustomWrapper.py (class QuestradeAPI, the error classes,
    and the dispatch loop QuestradeAPI._make_request)
  - QuestradeAPI/Chronos.py      (class Chronos: symbol cache/store and the
    incremental candle cache)

Modelling conventions:
  - Python float time values (time.time(), header reset stamps, sleep
    durations) are modelled as rational numbers.
  - deque(maxlen=n) is modelled as a list bounded by dropping oldest
    entries from the front on append.
  - The HTTP layer is modelled as a stream of abstract responses indexed
    by the number of requests issued so far; the wall clock advances only
    at time.sleep calls.
  - SQLite tables are modelled as lists of typed rows; INSERT OR REPLACE
    on a primary key is modelled as filter-out-the-key then append.
  - ISO-8601 timestamp strings stored in the candle table are modelled
    directly as rationals: the repository always writes them in one
    uniform format, for which string comparison and datetime comparison
    agree, and datetime.fromisoformat round-trips.
-/

namespace Questrade

/-- Python max(0, x) over rationals, written out to keep kernel evaluation
cheap. -/
def qmax0 (x : ℚ) : ℚ := if x < 0 then 0 else x

/-! ## RateLimiter (QuestradeAPI/RateLimiter.py) -/

/-- Enum ApiCategory from RateLimiter.py. -/
inductive ApiCategory where
  | account
  | market
deriving DecidableEq, Repr

/-- One entry of RateLimiter.RATE_LIMITS: (requests per second, requests
per hour). -/
structure RLLimits where
  secondLimit : Nat
  hourLimit : Nat
deriving DecidableEq, Repr

/-- RateLimiter.RATE_LIMITS: ACCOUNT (30, 30000), MARKET (20, 15000). -/
def RATE_LIMITS : ApiCategory → RLLimits
  | .account => ⟨30, 30000⟩
  | .market => ⟨20, 15000⟩

/-- Per-category mutable state of RateLimiter: the two deques of request
timestamps plus the server-reported remaining/reset pair. -/
structure RLState where
  secondHist : List ℚ
  hourHist : List ℚ
  remaining : ℤ
  resetTime : ℚ
deriving DecidableEq, Repr

/-- RateLimiter.__init__ per-category state: empty histories, remaining
initialised to the per-second limit, reset time one second from now. -/
def RLState.init (cfg : RLLimits) (now : ℚ) : RLState :=
  ⟨[], [], cfg.secondLimit, now + 1⟩

/-- collections.deque(maxlen=n).append(x): append on the right, dropping
from the left when the deque is full. -/
def dequeAppend (maxlen : Nat) (xs : List ℚ) (x : ℚ) : List ℚ :=
  let ys := xs ++ [x]
  ys.drop (ys.length - maxlen)

/-- RateLimiter.update_limits: overwrite the server-reported state. -/
def update_limits (s : RLState) (remaining : ℤ) (resetTime : ℚ) : RLState :=
  { s with remaining := remaining, resetTime := resetTime }

/-- RateLimiter.record_request: append the current time to both history
deques. -/
def record_request (cfg : RLLimits) (s : RLState) (now : ℚ) : RLState :=
  { s with
    secondHist := dequeAppend cfg.secondLimit s.secondHist now
    hourHist := dequeAppend cfg.hourLimit s.hourHist now }

/-- RateLimiter.wait_if_needed, flattened from the nested
if wait_time > 0: return wait_time chain of the source. The source
indexes second_history[0] only under len >= limit; with a positive limit
the deque is then nonempty, so headD is exact there. -/
def wait_if_needed (cfg : RLLimits) (s : RLState) (now : ℚ) : ℚ :=
  if s.remaining ≤ 0 ∧ 0 < qmax0 (s.resetTime - now) then
    qmax0 (s.resetTime - now)
  else if cfg.secondLimit ≤ s.secondHist.length ∧
      0 < qmax0 (1 - (now - s.secondHist.headD 0)) then
    qmax0 (1 - (now - s.secondHist.headD 0))
  else if cfg.hourLimit ≤ s.hourHist.length ∧
      0 < qmax0 (3600 - (now - s.hourHist.headD 0)) then
    qmax0 (3600 - (now - s.hourHist.headD 0))
  else 0

/-- Helper: record a whole list of request timestamps in order. -/
def recordAll (cfg : RLLimits) (s : RLState) (ts : List ℚ) : RLState :=
  ts.foldl (fun st t => record_request cfg st t) s

/-- One rate limiter call, for stating invariants over arbitrary call
sequences; wait_if_needed reads but never mutates the state. -/
inductive RLOp where
  | record (t : ℚ)
  | update (remaining : ℤ) (resetAt : ℚ)
  | wait (now : ℚ)
deriving DecidableEq, Repr

/-- Apply one rate limiter call to the per-category state. -/
def applyOp (cfg : RLLimits) (s : RLState) : RLOp → RLState
  | .record t => record_request cfg s t
  | .update r ra => update_limits s r ra
  | .wait _ => s

/-- Apply a sequence of rate limiter calls in order. -/
def applyOps (cfg : RLLimits) (s : RLState) (ops : List RLOp) : RLState :=
  ops.foldl (applyOp cfg) s

/-! ## Request dispatcher (QuestradeAPI/CustomWrapper.py)

The dispatcher QuestradeAPI._make_request is embedded as a fuel-indexed
function over an abstract HTTP layer: responses is the stream of
responses the server returns, indexed by how many requests were issued
so far, and authResults gives the outcome of the k-th authenticate()
call. requests.get and friends return their Response and raise no
exception in this model; in particular requests.exceptions.HTTPError is
never raised, because the source never calls raise_for_status, so the
except HTTPError handler of the source (the 401 re-authentication block)
is unreachable and has no counterpart in the embedding. The wall clock
advances only at time.sleep. Fuel maxRetries + 1 - retryCount is an
upper bound on the recursion depth, because both recursive call sites
increment retryCount and are guarded by retryCount < maxRetries. -/

/-- Python int(s) on the strings this development quantifies over:
an optional minus sign followed by decimal digits. -/
def parseDigits (cs : List Char) : Option Nat :=
  if cs = [] then none
  else
    cs.foldl
      (fun acc c =>
        match acc with
        | some a => if c.isDigit then some (a * 10 + (c.toNat - 48)) else none
        | none => none)
      (some 0)

/-- Python int(s), modelled on sign-plus-digits strings. -/
def parseInt? (s : String) : Option ℤ :=
  match s.toList with
  | [] => none
  | c :: cs =>
    if c = '-' then (parseDigits cs).map (fun n => -(n : ℤ))
    else (parseDigits (c :: cs)).map (fun n => (n : ℤ))

/-- Split a character list at the first dot, if any. -/
def splitOnDot : List Char → List Char × Option (List Char)
  | [] => ([], none)
  | c :: cs =>
    if c = '.' then ([], some cs)
    else
      let r := splitOnDot cs
      (c :: r.1, r.2)

/-- Unsigned part of Python float(s): digits with an optional fractional
part. -/
def parseFloatMag (cs : List Char) : Option ℚ :=
  match splitOnDot cs with
  | (intPart, none) => (parseDigits intPart).map (fun n => (n : ℚ))
  | (intPart, some fracPart) =>
    match parseDigits intPart, parseDigits fracPart with
    | some a, some b => some ((a : ℚ) + (b : ℚ) / ((10 : ℚ) ^ fracPart.length))
    | _, _ => none

/-- Python float(s), modelled on decimal-literal strings; every string
outside this grammar counts as unparseable, matching ValueError. -/
def parseFloat? (s : String) : Option ℚ :=
  match s.toList with
  | [] => none
  | c :: cs =>
    if c = '-' then (parseFloatMag cs).map (fun q => -q)
    else parseFloatMag (c :: cs)

/-- Abstraction of a parsed JSON error body: the fields _make_request
reads. None in the code/message slots models a missing key; orderId and
hasOrders model presence of the orderId and orders keys. -/
structure ErrorBody where
  code : Option String
  message : Option String
  orderId : Option ℤ
  hasOrders : Bool
deriving DecidableEq, Repr

/-- Abstraction of an HTTP response: status code, the two rate limit
headers as raw strings, the JSON body (none models a body that fails
JSON parsing) and the raw text. -/
structure Response where
  status : Nat
  remainingHdr : Option String
  resetHdr : Option String
  body : Option ErrorBody
  text : String
deriving DecidableEq, Repr

/-- The typed errors raised by CustomWrapper.py: QuestradeGeneralError,
QuestradeOrderError and QuestradeRateLimitError (in the source the
latter subclasses QuestradeGeneralError, and all three subclass
QuestradeAPIError). The order list is abstracted away; statusCode none
models Python None. -/
inductive QError where
  | general (code message : String) (statusCode : Option Nat)
  | order (code message : String) (orderId : ℤ) (statusCode : Option Nat)
  | rateLimit (code message : String) (statusCode : Nat) (retryAfter : Option ℚ)
deriving DecidableEq, Repr

/-- Character-list version of Python str.startswith. -/
def isPrefixOfChars : List Char → List Char → Bool
  | [], _ => true
  | _ :: _, [] => false
  | a :: as, b :: bs => a = b && isPrefixOfChars as bs

/-- Python substring membership (the in operator on str). -/
def containsSeg (needle : List Char) : List Char → Bool
  | [] => isPrefixOfChars needle []
  | c :: cs => isPrefixOfChars needle (c :: cs) || containsSeg needle cs

/-- Python str.lstrip with a slash argument. -/
def lstripSlashes (s : String) : String :=
  String.mk (s.toList.dropWhile (fun c => c = '/'))

/-- Python str.startswith, on the character lists of the strings. -/
def startsWithStr (s p : String) : Bool :=
  isPrefixOfChars p.toList s.toList

/-- RateLimiter.get_category_for_endpoint: market data for v1/markets
and v1/symbols prefixes, ACCOUNT otherwise. -/
def get_category_for_endpoint (endpoint : String) : ApiCategory :=
  let e := lstripSlashes endpoint
  if startsWithStr e "v1/markets" || startsWithStr e "v1/symbols" ||
      (startsWithStr e "v1/symbols/" && containsSeg "/options".toList e.toList) then
    ApiCategory.market
  else
    ApiCategory.account

/-- Dispatch environment: the constructor arguments of QuestradeAPI that
_make_request consults, the request being dispatched, and the abstract
behaviour of the outside world. -/
structure Env where
  maxRetries : Nat
  enforceRateLimit : Bool
  endpoint : String
  method : String
  responses : Nat → Response
  authResults : Nat → Bool

/-- Mutable state threaded by the dispatcher: token presence, the per
category rate limiter states, the wall clock, and the observable trace
counters (requests issued, authenticate calls, sleeps performed). -/
structure St where
  hasToken : Bool
  rlAccount : RLState
  rlMarket : RLState
  clock : ℚ
  httpCount : Nat
  authCalls : Nat
  sleeps : List ℚ
deriving DecidableEq, Repr

/-- Rate limiter state of one category. -/
def St.rlOf (st : St) : ApiCategory → RLState
  | .account => st.rlAccount
  | .market => st.rlMarket

/-- Replace the rate limiter state of one category. -/
def St.setRl (st : St) : ApiCategory → RLState → St
  | .account, r => { st with rlAccount := r }
  | .market, r => { st with rlMarket := r }

/-- time.sleep(d): the clock advances and the sleep is recorded. -/
def sleepFor (st : St) (d : ℚ) : St :=
  { st with clock := st.clock + d, sleeps := st.sleeps ++ [d] }

/-- QuestradeAPI._parse_rate_limit_headers: update the limiter only when
both headers are present and both parse; otherwise ignore them. -/
def parse_rate_limit_headers (cat : ApiCategory) (resp : Response) (st : St) : St :=
  match resp.remainingHdr, resp.resetHdr with
  | some r, some s =>
    match parseInt? r, parseFloat? s with
    | some ri, some rf => st.setRl cat (update_limits (st.rlOf cat) ri rf)
    | _, _ => st
  | _, _ => st

/-- The 429 handler wait: None when the header is absent or an empty
string (Python truthiness of the header value), max(0, reset - now) when
it parses as a float, and the 1 second default when it is a nonempty
string that fails to parse. -/
def retrySeconds429 (resp : Response) (now : ℚ) : Option ℚ :=
  match resp.resetHdr with
  | none => none
  | some s =>
    if s = "" then none
    else
      match parseFloat? s with
      | some f => some (qmax0 (f - now))
      | none => some 1

/-- Error construction for a status >= 400 response other than 429,
lines 284-305 of CustomWrapper.py: parse the body, classify as order or
general error, and degrade to synthesized general errors when the body
is not JSON. -/
def errorFromBody (resp : Response) : QError :=
  match resp.body with
  | some eb =>
    let code := eb.code.getD "0"
    let msg := eb.message.getD "Unknown error"
    match eb.orderId, eb.hasOrders with
    | some oid, true => .order code msg oid (some resp.status)
    | _, _ => .general code msg (some resp.status)
  | none =>
    if resp.status = 404 then .general "1001" "Invalid endpoint" (some 404)
    else .general "1021" (String.append "Unexpected error: " resp.text) (some resp.status)

/-- Python str.upper on one ASCII character. -/
def upperChar (c : Char) : Char :=
  if 97 ≤ c.toNat ∧ c.toNat ≤ 122 then Char.ofNat (c.toNat - 32) else c

/-- Python str.upper, on the character list of the string. -/
def upperStr (m : String) : String :=
  String.mk (m.toList.map upperChar)

/-- The method names accepted by the if/elif chain of _make_request. -/
def validMethod (m : String) : Bool :=
  upperStr m = "GET" || upperStr m = "POST" || upperStr m = "PUT" ||
    upperStr m = "DELETE"

/-! ### Dispatcher state projection lemmas -/

@[simp] theorem setRl_httpCount (st : St) (c : ApiCategory) (r : RLState) :
    (st.setRl c r).httpCount = st.httpCount := by cases c <;> rfl

@[simp] theorem setRl_sleeps (st : St) (c : ApiCategory) (r : RLState) :
    (st.setRl c r).sleeps = st.sleeps := by cases c <;> rfl

@[simp] theorem setRl_clock (st : St) (c : ApiCategory) (r : RLState) :
    (st.setRl c r).clock = st.clock := by cases c <;> rfl

@[simp] theorem setRl_hasToken (st : St) (c : ApiCategory) (r : RLState) :
    (st.setRl c r).hasToken = st.hasToken := by cases c <;> rfl

@[simp] theorem setRl_authCalls (st : St) (c : ApiCategory) (r : RLState) :
    (st.setRl c r).authCalls = st.authCalls := by cases c <;> rfl

@[simp] theorem sleepFor_httpCount (st : St) (d : ℚ) :
    (sleepFor st d).httpCount = st.httpCount := rfl

@[simp] theorem sleepFor_sleeps (st : St) (d : ℚ) :
    (sleepFor st d).sleeps = st.sleeps ++ [d] := rfl

@[simp] theorem sleepFor_clock (st : St) (d : ℚ) :
    (sleepFor st d).clock = st.clock + d := rfl

@[simp] theorem sleepFor_hasToken (st : St) (d : ℚ) :
    (sleepFor st d).hasToken = st.hasToken := rfl

@[simp] theorem sleepFor_authCalls (st : St) (d : ℚ) :
    (sleepFor st d).authCalls = st.authCalls := rfl

@[simp] theorem parse_hdrs_httpCount (cat : ApiCategory) (resp : Response) (st : St) :
    (parse_rate_limit_headers cat resp st).httpCount = st.httpCount := by
  unfold parse_rate_limit_headers
  cases resp.remainingHdr with
  | none => rfl
  | some r =>
    cases resp.resetHdr with
    | none => rfl
    | some s =>
      cases h3 : parseInt? r <;> cases h4 : parseFloat? s <;> simp [h3, h4]

@[simp] theorem parse_hdrs_sleeps (cat : ApiCategory) (resp : Response) (st : St) :
    (parse_rate_limit_headers cat resp st).sleeps = st.sleeps := by
  unfold parse_rate_limit_headers
  cases resp.remainingHdr with
  | none => rfl
  | some r =>
    cases resp.resetHdr with
    | none => rfl
    | some s =>
      cases h3 : parseInt? r <;> cases h4 : parseFloat? s <;> simp [h3, h4]

@[simp] theorem parse_hdrs_clock (cat : ApiCategory) (resp : Response) (st : St) :
    (parse_rate_limit_headers cat resp st).clock = st.clock := by
  unfold parse_rate_limit_headers
  cases resp.remainingHdr with
  | none => rfl
  | some r =>
    cases resp.resetHdr with
    | none => rfl
    | some s =>
      cases h3 : parseInt? r <;> cases h4 : parseFloat? s <;> simp [h3, h4]

@[simp] theorem parse_hdrs_hasToken (cat : ApiCategory) (resp : Response) (st : St) :
    (parse_rate_limit_headers cat resp st).hasToken = st.hasToken := by
  unfold parse_rate_limit_headers
  cases resp.remainingHdr with
  | none => rfl
  | some r =>
    cases resp.resetHdr with
    | none => rfl
    | some s =>
      cases h3 : parseInt? r <;> cases h4 : parseFloat? s <;> simp [h3, h4]

@[simp] theorem parse_hdrs_authCalls (cat : ApiCategory) (resp : Response) (st : St) :
    (parse_rate_limit_headers cat resp st).authCalls = st.authCalls := by
  unfold parse_rate_limit_headers
  cases resp.remainingHdr with
  | none => rfl
  | some r =>
    cases resp.resetHdr with
    | none => rfl
    | some s =>
      cases h3 : parseInt? r <;> cases h4 : parseFloat? s <;> simp [h3, h4]


/-- The state after step 4 of the dispatch: the request is recorded in
the local windows and issued (the issue counter advances), and the rate
limit headers of the response are fed to the limiter. -/
def recordedState (env : Env) (st0 : St) : St :=
  let cat := get_category_for_endpoint env.endpoint
  st0.setRl cat (record_request (RATE_LIMITS cat) (st0.rlOf cat) st0.clock)

/-- The state after the response for the current issue index has been
received and its rate limit headers processed. -/
def issuedState (env : Env) (st0 : St) : St :=
  let cat := get_category_for_endpoint env.endpoint
  let st1 := recordedState env st0
  parse_rate_limit_headers cat (env.responses st1.httpCount)
    { st1 with httpCount := st1.httpCount + 1 }

@[simp] theorem recordedState_httpCount (env : Env) (st0 : St) :
    (recordedState env st0).httpCount = st0.httpCount := by
  unfold recordedState; simp

@[simp] theorem recordedState_sleeps (env : Env) (st0 : St) :
    (recordedState env st0).sleeps = st0.sleeps := by
  unfold recordedState; simp

@[simp] theorem recordedState_clock (env : Env) (st0 : St) :
    (recordedState env st0).clock = st0.clock := by
  unfold recordedState; simp

@[simp] theorem recordedState_hasToken (env : Env) (st0 : St) :
    (recordedState env st0).hasToken = st0.hasToken := by
  unfold recordedState; simp

@[simp] theorem recordedState_authCalls (env : Env) (st0 : St) :
    (recordedState env st0).authCalls = st0.authCalls := by
  unfold recordedState; simp

@[simp] theorem issuedState_httpCount (env : Env) (st0 : St) :
    (issuedState env st0).httpCount = st0.httpCount + 1 := by
  unfold issuedState; simp

@[simp] theorem issuedState_sleeps (env : Env) (st0 : St) :
    (issuedState env st0).sleeps = st0.sleeps := by
  unfold issuedState; simp

@[simp] theorem issuedState_clock (env : Env) (st0 : St) :
    (issuedState env st0).clock = st0.clock := by
  unfold issuedState; simp

@[simp] theorem issuedState_hasToken (env : Env) (st0 : St) :
    (issuedState env st0).hasToken = st0.hasToken := by
  unfold issuedState; simp

@[simp] theorem issuedState_authCalls (env : Env) (st0 : St) :
    (issuedState env st0).authCalls = st0.authCalls := by
  unfold issuedState; simp

/-- Body of QuestradeAPI._make_request after the authentication check,
with the two recursive retry sites abstracted into recurse. Control flow
per the source: classify the endpoint; when enforcement is on and
wait_if_needed is positive, sleep and retry while retries remain, else
raise rate limit error 1006 carrying the wait; record the request,
reject unsupported methods (the ValueError is wrapped by the final
except clause into general error 1021), issue the request and feed the
rate limit headers to the limiter; on 429 compute the header wait, sleep
and retry while retries remain and the wait exists, else raise rate
limit error 1006 carrying it; on other statuses >= 400 raise the
classified error; otherwise return the parsed body, degrading a non JSON
success body to general error 1010. -/
def make_request_core (env : Env)
    (recurse : St → Nat → Except QError Response × St)
    (st0 : St) (retryCount : Nat) : Except QError Response × St :=
  let cat := get_category_for_endpoint env.endpoint
  let cfg := RATE_LIMITS cat
  let wait := wait_if_needed cfg (st0.rlOf cat) st0.clock
  if env.enforceRateLimit = true ∧ 0 < wait then
    if retryCount < env.maxRetries then
      recurse (sleepFor st0 wait) (retryCount + 1)
    else
      (.error (.rateLimit "1006"
        "Rate limit exceeded. Maximum retry attempts reached." 429 (some wait)), st0)
  else
    let st1 := recordedState env st0
    if validMethod env.method = false then
      (.error (.general "1021"
        (String.append "Unexpected error: Unsupported HTTP method: " env.method)
        none), st1)
    else
      let resp := env.responses st1.httpCount
      let st3 := issuedState env st0
      if resp.status = 429 then
        match retrySeconds429 resp st3.clock with
        | some w =>
          if retryCount < env.maxRetries then
            recurse (sleepFor st3 w) (retryCount + 1)
          else
            (.error (.rateLimit "1006"
              "Rate limit exceeded. Maximum retry attempts reached." 429 (some w)), st3)
        | none =>
          (.error (.rateLimit "1006"
            "Rate limit exceeded. Maximum retry attempts reached." 429 none), st3)
      else if 400 ≤ resp.status then
        (.error (errorFromBody resp), st3)
      else
        match resp.body with
        | some _ => (.ok resp, st3)
        | none =>
          (.error (.general "1010"
            (String.append "Invalid JSON response: " resp.text) none), st3)

/-- QuestradeAPI._make_request, fuel-indexed: authenticate when no token
is held (a failure is fatal for the call with general error 1000, per
lines 210-213 of the source), then run the dispatch body. The fuel-zero
branch is a model artifact that no run started within the retry budget
can reach. -/
def make_request_aux (env : Env) : Nat → St → Nat → Except QError Response × St
  | 0, st, _ => (.error (.general "0" "model fuel exhausted" none), st)
  | fuel + 1, st, retryCount =>
    let st0 :=
      if st.hasToken then st
      else { st with authCalls := st.authCalls + 1,
                     hasToken := env.authResults st.authCalls }
    if st0.hasToken = false then
      (.error (.general "1000" "Authentication failed" none), st0)
    else
      make_request_core env (make_request_aux env fuel) st0 retryCount

/-- QuestradeAPI._make_request entry point: the fuel bound suffices for
every run started at retryCount ≤ maxRetries. -/
def make_request (env : Env) (st : St) (retryCount : Nat) :
    Except QError Response × St :=
  make_request_aux env (env.maxRetries + 1 - retryCount) st retryCount

instance : DecidableEq (Except QError Response) := fun x y =>
  match x, y with
  | .ok a, .ok b =>
    decidable_of_iff (a = b) ⟨fun h => by rw [h], fun h => by injection h⟩
  | .error a, .error b =>
    decidable_of_iff (a = b) ⟨fun h => by rw [h], fun h => by injection h⟩
  | .ok _, .error _ => isFalse (fun h => by injection h)
  | .error _, .ok _ => isFalse (fun h => by injection h)

/-! ### Rate limiter lemmas -/

theorem dequeAppend_length_le (maxlen : Nat) (xs : List ℚ) (x : ℚ) :
    (dequeAppend maxlen xs x).length ≤ maxlen := by
  unfold dequeAppend
  simp only [List.length_drop, List.length_append, List.length_cons,
    List.length_nil]
  omega

theorem dequeAppend_of_lt (maxlen : Nat) (xs : List ℚ) (x : ℚ)
    (h : xs.length < maxlen) : dequeAppend maxlen xs x = xs ++ [x] := by
  unfold dequeAppend
  have h0 : xs.length + 1 - maxlen = 0 := by omega
  simp [h0]

theorem dequeAppend_of_full (maxlen : Nat) (xs : List ℚ) (x : ℚ)
    (h : xs.length = maxlen) (hpos : 0 < maxlen) :
    dequeAppend maxlen xs x = xs.tail ++ [x] := by
  unfold dequeAppend
  have h1 : xs.length + 1 - maxlen = 1 := by omega
  simp only [List.length_append, List.length_cons, List.length_nil,
    Nat.add_zero, h1]
  rw [List.drop_append_of_le_length (by omega), List.drop_one]

theorem recordAll_remaining (cfg : RLLimits) (s : RLState) (ts : List ℚ) :
    (recordAll cfg s ts).remaining = s.remaining := by
  induction ts generalizing s with
  | nil => rfl
  | cons t ts ih => exact (ih (record_request cfg s t)).trans rfl

theorem recordAll_secondHist (cfg : RLLimits) (s : RLState) (ts : List ℚ)
    (h : s.secondHist.length + ts.length ≤ cfg.secondLimit) :
    (recordAll cfg s ts).secondHist = s.secondHist ++ ts := by
  induction ts generalizing s with
  | nil => simp [recordAll]
  | cons t ts ih =>
    have hlt : s.secondHist.length < cfg.secondLimit := by
      simp only [List.length_cons] at h; omega
    have step : (record_request cfg s t).secondHist = s.secondHist ++ [t] := by
      simp [record_request, dequeAppend_of_lt _ _ _ hlt]
    have htail : (record_request cfg s t).secondHist.length + ts.length ≤
        cfg.secondLimit := by
      rw [step]; simp only [List.length_append, List.length_cons,
        List.length_nil, List.length_cons] at h ⊢
      omega
    calc (recordAll cfg (record_request cfg s t) ts).secondHist
        = (record_request cfg s t).secondHist ++ ts := ih _ htail
      _ = s.secondHist ++ t :: ts := by rw [step]; simp

theorem recordAll_hourHist (cfg : RLLimits) (s : RLState) (ts : List ℚ)
    (h : s.hourHist.length + ts.length ≤ cfg.hourLimit) :
    (recordAll cfg s ts).hourHist = s.hourHist ++ ts := by
  induction ts generalizing s with
  | nil => simp [recordAll]
  | cons t ts ih =>
    have hlt : s.hourHist.length < cfg.hourLimit := by
      simp only [List.length_cons] at h; omega
    have step : (record_request cfg s t).hourHist = s.hourHist ++ [t] := by
      simp [record_request, dequeAppend_of_lt _ _ _ hlt]
    have htail : (record_request cfg s t).hourHist.length + ts.length ≤
        cfg.hourLimit := by
      rw [step]; simp only [List.length_append, List.length_cons,
        List.length_nil, List.length_cons] at h ⊢
      omega
    calc (recordAll cfg (record_request cfg s t) ts).hourHist
        = (record_request cfg s t).hourHist ++ ts := ih _ htail
      _ = s.hourHist ++ t :: ts := by rw [step]; simp

/-! ### Claim C1 -/

/-- C1: evaluation of the dispatcher at the failing input of the claim.
The response stream returns HTTP 401 with a parsed JSON error body on
the first request and 200 afterwards, authentication always succeeds,
and three retries are allowed; the dispatch nevertheless fails at once
with general error 1017 taken from the body, calls authenticate zero
times and issues exactly one request. The re-authentication handler of
the source sits in an except requests.exceptions.HTTPError clause, and
nothing in the try block ever raises HTTPError (raise_for_status is
never called), so a 401 response is consumed by the status >= 400
branch instead. -/
theorem dispatch_401_no_reauth_eval :
    (make_request
        ⟨3, false, "v1/accounts", "GET",
          fun i => if i = 0 then
            ⟨401, none, none,
              some ⟨some "1017", some "Access token is invalid", none, false⟩, ""⟩
          else ⟨200, none, none, some ⟨none, none, none, false⟩, ""⟩,
          fun _ => true⟩
        ⟨true, ⟨[], [], 30, 1⟩, ⟨[], [], 20, 1⟩, 0, 0, 0, []⟩ 0).1 =
      .error (.general "1017" "Access token is invalid" (some 401)) ∧
    (make_request
        ⟨3, false, "v1/accounts", "GET",
          fun i => if i = 0 then
            ⟨401, none, none,
              some ⟨some "1017", some "Access token is invalid", none, false⟩, ""⟩
          else ⟨200, none, none, some ⟨none, none, none, false⟩, ""⟩,
          fun _ => true⟩
        ⟨true, ⟨[], [], 30, 1⟩, ⟨[], [], 20, 1⟩, 0, 0, 0, []⟩ 0).2.authCalls = 0 ∧
    (make_request
        ⟨3, false, "v1/accounts", "GET",
          fun i => if i = 0 then
            ⟨401, none, none,
              some ⟨some "1017", some "Access token is invalid", none, false⟩, ""⟩
          else ⟨200, none, none, some ⟨none, none, none, false⟩, ""⟩,
          fun _ => true⟩
        ⟨true, ⟨[], [], 30, 1⟩, ⟨[], [], 20, 1⟩, 0, 0, 0, []⟩ 0).2.httpCount = 1 := by
  decide

/-! ### Claim C7 -/

/-- Modelled from the spec: section 7 lists four distinct typed errors,
AuthenticationError, GeneralError, OrderError and RateLimitExceeded. An
error value is an AuthenticationError in that taxonomy only when it is
distinct from the other three kinds. The source (CustomWrapper.py lines
12-74) defines only QuestradeGeneralError, QuestradeOrderError and
QuestradeRateLimitError, so no error the dispatcher can raise is a
distinct AuthenticationError. -/
def isSpecAuthenticationError (e : QError) : Bool :=
  match e with
  | .general _ _ _ => false
  | .order _ _ _ _ => false
  | .rateLimit _ _ _ _ => false

/-- C7 counterexample: a dispatch in which authentication cannot be
established fails with QuestradeGeneralError code 1000, which is not a
distinct AuthenticationError of the four-kind spec taxonomy. -/
theorem auth_failure_not_authentication_error_cex :
    (make_request
        ⟨3, false, "v1/accounts", "GET",
          fun _ => ⟨200, none, none, some ⟨none, none, none, false⟩, ""⟩,
          fun _ => false⟩
        ⟨false, ⟨[], [], 30, 1⟩, ⟨[], [], 20, 1⟩, 0, 0, 0, []⟩ 0).1 =
      .error (.general "1000" "Authentication failed" none) ∧
    isSpecAuthenticationError (.general "1000" "Authentication failed" none) =
      false := by
  decide

/-- C7 amended: every error the dispatcher surfaces is one of the three
typed error classes of the source (general, order, rate limit); when
authentication cannot be established at the start of a dispatch, the
call fails with QuestradeGeneralError code 1000 "Authentication failed"
after exactly one authenticate attempt and no request issue. -/
theorem auth_failure_yields_general_error (env : Env) (st : St) (rc : Nat)
    (h1 : rc ≤ env.maxRetries) (h2 : st.hasToken = false)
    (h3 : env.authResults st.authCalls = false) :
    (make_request env st rc =
      (.error (.general "1000" "Authentication failed" none),
        { st with authCalls := st.authCalls + 1, hasToken := false })) ∧
    (∀ e : QError, (make_request env st rc).1 = .error e →
      (∃ c m sc, e = QError.general c m sc) ∨
      (∃ c m oid sc, e = QError.order c m oid sc) ∨
      (∃ c m sc ra, e = QError.rateLimit c m sc ra)) := by
  have hfuel : env.maxRetries + 1 - rc = (env.maxRetries - rc) + 1 := by omega
  have hrun : make_request env st rc =
      (.error (.general "1000" "Authentication failed" none),
        { st with authCalls := st.authCalls + 1, hasToken := false }) := by
    unfold make_request
    rw [hfuel]
    simp only [make_request_aux, h2, if_neg, ite_false, Bool.false_eq_true, h3]
    simp
  refine ⟨hrun, ?_⟩
  intro e he
  cases e with
  | general c m sc => exact Or.inl ⟨c, m, sc, rfl⟩
  | order c m oid sc => exact Or.inr (Or.inl ⟨c, m, oid, sc, rfl⟩)
  | rateLimit c m sc ra => exact Or.inr (Or.inr ⟨c, m, sc, ra, rfl⟩)

/-- C7 witness: concrete failed-authentication dispatch produces the
general error 1000 and the state with one recorded authenticate call. -/
theorem auth_failure_yields_general_error_witness :
    make_request
        ⟨2, true, "v1/time", "GET",
          fun _ => ⟨200, none, none, some ⟨none, none, none, false⟩, ""⟩,
          fun _ => false⟩
        ⟨false, ⟨[], [], 30, 1⟩, ⟨[], [], 20, 1⟩, 0, 0, 0, []⟩ 0 =
      (.error (.general "1000" "Authentication failed" none),
        ⟨false, ⟨[], [], 30, 1⟩, ⟨[], [], 20, 1⟩, 0, 0, 1, []⟩) :=
  (auth_failure_yields_general_error
    ⟨2, true, "v1/time", "GET",
      fun _ => ⟨200, none, none, some ⟨none, none, none, false⟩, ""⟩,
      fun _ => false⟩
    ⟨false, ⟨[], [], 30, 1⟩, ⟨[], [], 20, 1⟩, 0, 0, 0, []⟩ 0
    (Nat.zero_le _) rfl rfl).1

/-! ### Claim C10 -/

/-- C10 counterexample: a 429 response whose X-RateLimit-Reset header is
present but the empty string is unparseable (float of it raises), yet
the dispatcher raises immediately with retry_after None, no sleep and no
retry, although retry_count 0 is below max_retries 3 — the source tests
the header with if retry_after:, so an empty header value is treated
like an absent one, contradicting the claim that every present but
unparseable header yields a 1 second wait and a retry. -/
theorem missing_reset_header_cex :
    (make_request
        ⟨3, false, "v1/accounts", "GET", fun _ => ⟨429, none, some "", none, ""⟩,
          fun _ => true⟩
        ⟨true, ⟨[], [], 30, 1⟩, ⟨[], [], 20, 1⟩, 0, 0, 0, []⟩ 0).1 =
      .error (.rateLimit "1006"
        "Rate limit exceeded. Maximum retry attempts reached." 429 none) ∧
    (make_request
        ⟨3, false, "v1/accounts", "GET", fun _ => ⟨429, none, some "", none, ""⟩,
          fun _ => true⟩
        ⟨true, ⟨[], [], 30, 1⟩, ⟨[], [], 20, 1⟩, 0, 0, 0, []⟩ 0).2.sleeps = [] ∧
    (make_request
        ⟨3, false, "v1/accounts", "GET", fun _ => ⟨429, none, some "", none, ""⟩,
          fun _ => true⟩
        ⟨true, ⟨[], [], 30, 1⟩, ⟨[], [], 20, 1⟩, 0, 0, 0, []⟩ 0).2.httpCount = 1 ∧
    parseFloat? "" = none ∧ (0 : Nat) < 3 := by
  decide

/-- C10 amended: on a 429 response, when the X-RateLimit-Reset header is
absent or an empty string the dispatcher raises QuestradeRateLimitError
immediately with retry_after None, performing no sleep and no retry even
when retry_count is below max_retries; a present, nonempty but
unparseable header instead yields the default 1 second sleep and a
retry of the request. -/
theorem dispatch_429_reset_header_handling (env : Env) (st : St) (rc : Nat)
    (htk : st.hasToken = true) (henf : env.enforceRateLimit = false)
    (hvm : validMethod env.method = true) (hrc : rc ≤ env.maxRetries) :
    ((env.responses st.httpCount).status = 429 →
      ((env.responses st.httpCount).resetHdr = none ∨
        (env.responses st.httpCount).resetHdr = some "") →
      make_request env st rc =
        (.error (.rateLimit "1006"
          "Rate limit exceeded. Maximum retry attempts reached." 429 none),
          issuedState env st) ∧
      (issuedState env st).sleeps = st.sleeps ∧
      (issuedState env st).httpCount = st.httpCount + 1) ∧
    (∀ s : String, (env.responses st.httpCount).status = 429 →
      (env.responses st.httpCount).resetHdr = some s → s ≠ "" →
      parseFloat? s = none → rc < env.maxRetries →
      make_request env st rc =
        make_request_aux env (env.maxRetries - rc)
          (sleepFor (issuedState env st) 1) (rc + 1) ∧
      (sleepFor (issuedState env st) 1).sleeps = st.sleeps ++ [1]) := by
  have hfuel : env.maxRetries + 1 - rc = (env.maxRetries - rc) + 1 := by omega
  constructor
  · intro hst hh
    refine ⟨?_, by simp, by simp⟩
    unfold make_request
    rw [hfuel]
    simp only [make_request_aux, htk, if_true, ite_true, Bool.true_eq_false,
      if_neg, ite_false]
    simp only [make_request_core, henf, false_and, ite_false, hvm,
      Bool.true_eq_false, if_false, recordedState_httpCount, hst, if_pos,
      ite_true, if_true]
    unfold retrySeconds429
    rcases hh with hh | hh <;> simp [hh]
  · intro s hst hh hne hp hlt
    refine ⟨?_, by simp⟩
    unfold make_request
    rw [hfuel]
    simp only [make_request_aux, htk, if_true, ite_true, Bool.true_eq_false,
      if_neg, ite_false]
    simp only [make_request_core, henf, false_and, ite_false, hvm,
      Bool.true_eq_false, if_false, recordedState_httpCount, hst, if_pos,
      ite_true, if_true]
    unfold retrySeconds429
    simp [hh, hne, hp, hlt]

/-- C10 witness: concrete instances of both conjuncts, with an absent
header on one environment and the unparseable header value abc on the
other. -/
theorem dispatch_429_reset_header_handling_witness :
    make_request
        ⟨3, false, "v1/accounts", "GET", fun _ => ⟨429, none, none, none, ""⟩,
          fun _ => true⟩
        ⟨true, ⟨[], [], 30, 1⟩, ⟨[], [], 20, 1⟩, 0, 0, 0, []⟩ 0 =
      (.error (.rateLimit "1006"
        "Rate limit exceeded. Maximum retry attempts reached." 429 none),
        issuedState
          ⟨3, false, "v1/accounts", "GET", fun _ => ⟨429, none, none, none, ""⟩,
            fun _ => true⟩
          ⟨true, ⟨[], [], 30, 1⟩, ⟨[], [], 20, 1⟩, 0, 0, 0, []⟩) ∧
    make_request
        ⟨3, false, "v1/accounts", "GET",
          fun _ => ⟨429, none, some "abc", none, ""⟩, fun _ => true⟩
        ⟨true, ⟨[], [], 30, 1⟩, ⟨[], [], 20, 1⟩, 0, 0, 0, []⟩ 0 =
      make_request_aux
        ⟨3, false, "v1/accounts", "GET",
          fun _ => ⟨429, none, some "abc", none, ""⟩, fun _ => true⟩ 3
        (sleepFor
          (issuedState
            ⟨3, false, "v1/accounts", "GET",
              fun _ => ⟨429, none, some "abc", none, ""⟩, fun _ => true⟩
            ⟨true, ⟨[], [], 30, 1⟩, ⟨[], [], 20, 1⟩, 0, 0, 0, []⟩) 1) 1 := by
  constructor
  · exact ((dispatch_429_reset_header_handling
      ⟨3, false, "v1/accounts", "GET", fun _ => ⟨429, none, none, none, ""⟩,
        fun _ => true⟩
      ⟨true, ⟨[], [], 30, 1⟩, ⟨[], [], 20, 1⟩, 0, 0, 0, []⟩ 0
      rfl rfl (by decide) (Nat.zero_le _)).1 rfl (Or.inl rfl)).1
  · exact ((dispatch_429_reset_header_handling
      ⟨3, false, "v1/accounts", "GET",
        fun _ => ⟨429, none, some "abc", none, ""⟩, fun _ => true⟩
      ⟨true, ⟨[], [], 30, 1⟩, ⟨[], [], 20, 1⟩, 0, 0, 0, []⟩ 0
      rfl rfl (by decide) (Nat.zero_le _)).2 "abc" rfl rfl (by decide)
      (by decide) (by decide)).1

/-! ### Claim C6 -/

/-- The sequence of waits the 429 handler computes when every response
is a 429 carrying a reset header parsing to hf: each wait is
max(0, reset - now) at the clock reached after the previous sleeps. -/
def resetWaits (hf : Nat → ℚ) : Nat → Nat → ℚ → List ℚ
  | 0, _, _ => []
  | n + 1, idx, t =>
    let w := qmax0 (hf idx - t)
    w :: resetWaits hf n (idx + 1) (t + w)

/-- Induction workhorse for C6, stated over the fuel-indexed dispatcher:
when every response is 429 with a nonempty header parsing to hf, a run
started within the retry budget ends in rate limit error 1006 with HTTP
status 429 carrying some wait; with enforcement off, the run issues
exactly one request per remaining retry plus one, sleeps exactly the
computed header waits, and the carried wait is the one computed from the
final response at the final clock. -/
theorem aux_429_exhaustion (env : Env) (hs : Nat → String) (hf : Nat → ℚ)
    (hall : ∀ i, (env.responses i).status = 429 ∧
      (env.responses i).resetHdr = some (hs i) ∧ hs i ≠ "" ∧
      parseFloat? (hs i) = some (hf i))
    (hvm : validMethod env.method = true) :
    ∀ fuel st rc, fuel = env.maxRetries + 1 - rc → rc ≤ env.maxRetries →
      st.hasToken = true →
      ∃ w st2, make_request_aux env fuel st rc =
        (.error (.rateLimit "1006"
          "Rate limit exceeded. Maximum retry attempts reached." 429 (some w)), st2) ∧
      (env.enforceRateLimit = false →
        st2.httpCount = st.httpCount + (env.maxRetries - rc) + 1 ∧
        st2.sleeps = st.sleeps ++
          resetWaits hf (env.maxRetries - rc) st.httpCount st.clock ∧
        st2.clock = st.clock +
          (resetWaits hf (env.maxRetries - rc) st.httpCount st.clock).sum ∧
        w = qmax0 (hf (st.httpCount + (env.maxRetries - rc)) - st2.clock)) := by
  intro fuel
  induction fuel with
  | zero => intro st rc hfuel hrc htk; omega
  | succ n ih =>
    intro st rc hfuel hrc htk
    simp only [make_request_aux, htk, if_true, ite_true, Bool.true_eq_false,
      if_neg, ite_false]
    simp only [make_request_core]
    by_cases hgate : env.enforceRateLimit = true ∧
        0 < wait_if_needed (RATE_LIMITS (get_category_for_endpoint env.endpoint))
          (st.rlOf (get_category_for_endpoint env.endpoint)) st.clock
    · rw [if_pos hgate]
      by_cases hlt : rc < env.maxRetries
      · rw [if_pos hlt]
        obtain ⟨w, st2, heq, himp⟩ := ih (sleepFor st _) (rc + 1)
          (by omega) (by omega) (by simp [htk])
        refine ⟨w, st2, heq, ?_⟩
        intro henf
        rw [henf] at hgate
        exact absurd hgate.1 (by simp)
      · rw [if_neg hlt]
        refine ⟨_, st, rfl, ?_⟩
        intro henf
        rw [henf] at hgate
        exact absurd hgate.1 (by simp)
    · rw [if_neg hgate]
      obtain ⟨hst, hhdr, hne, hpf⟩ := hall st.httpCount
      simp only [hvm, Bool.true_eq_false, if_false, recordedState_httpCount,
        hst, eq_self_iff_true, if_true]
      have hretry : retrySeconds429 (env.responses st.httpCount)
          (issuedState env st).clock =
          some (qmax0 (hf st.httpCount - st.clock)) := by
        unfold retrySeconds429
        rw [hhdr, issuedState_clock]
        simp [hne, hpf]
      simp only [hretry]
      by_cases hlt : rc < env.maxRetries
      · rw [if_pos hlt]
        obtain ⟨w, st2, heq, himp⟩ := ih
          (sleepFor (issuedState env st) (qmax0 (hf st.httpCount - st.clock)))
          (rc + 1) (by omega) (by omega) (by simp [htk])
        refine ⟨w, st2, heq, ?_⟩
        intro henf
        obtain ⟨hc1, hc2, hc3, hc4⟩ := himp henf
        simp only [sleepFor_httpCount, issuedState_httpCount, sleepFor_clock,
          issuedState_clock, sleepFor_sleeps, issuedState_sleeps]
          at hc1 hc2 hc3 hc4
        have hsplit : env.maxRetries - rc = (env.maxRetries - (rc + 1)) + 1 := by
          omega
        have hunfold : resetWaits hf (env.maxRetries - rc) st.httpCount st.clock =
            qmax0 (hf st.httpCount - st.clock) ::
              resetWaits hf (env.maxRetries - (rc + 1)) (st.httpCount + 1)
                (st.clock + qmax0 (hf st.httpCount - st.clock)) := by
          rw [hsplit]
          rfl
        refine ⟨?_, ?_, ?_, ?_⟩
        · rw [hc1]
          omega
        · rw [hc2, hunfold]
          simp
        · rw [hc3, hunfold, List.sum_cons]
          ring
        · rw [hc4]
          have hidx : st.httpCount + 1 + (env.maxRetries - (rc + 1)) =
              st.httpCount + (env.maxRetries - rc) := by omega
          rw [hidx]
      · rw [if_neg hlt]
        have hrceq : env.maxRetries - rc = 0 := by omega
        refine ⟨_, issuedState env st, rfl, ?_⟩
        intro henf
        rw [hrceq]
        refine ⟨by simp, by simp [resetWaits], ?_, ?_⟩
        · simp [resetWaits]
        · simp [issuedState_clock]

/-- C6: when every response to a dispatch is HTTP 429 carrying a
nonempty X-RateLimit-Reset header that parses, a call started at
retryCount ≤ maxRetries fails with QuestradeRateLimitError code 1006 and
HTTP status 429 carrying a computed wait; with rate limit enforcement
off, the dispatcher issues maxRetries - retryCount + 1 requests (so it
retries at most maxRetries times), sleeps exactly the successive
max(0, reset - now) waits computed from the headers, and the error
carries the wait computed from the last response at the final clock. -/
theorem dispatch_429_exhausts_retries (env : Env) (hs : Nat → String)
    (hf : Nat → ℚ)
    (hall : ∀ i, (env.responses i).status = 429 ∧
      (env.responses i).resetHdr = some (hs i) ∧ hs i ≠ "" ∧
      parseFloat? (hs i) = some (hf i))
    (hvm : validMethod env.method = true)
    (st : St) (rc : Nat) (hrc : rc ≤ env.maxRetries)
    (htk : st.hasToken = true) :
    ∃ w st2, make_request env st rc =
      (.error (.rateLimit "1006"
        "Rate limit exceeded. Maximum retry attempts reached." 429 (some w)), st2) ∧
    (env.enforceRateLimit = false →
      st2.httpCount = st.httpCount + (env.maxRetries - rc) + 1 ∧
      st2.sleeps = st.sleeps ++
        resetWaits hf (env.maxRetries - rc) st.httpCount st.clock ∧
      st2.clock = st.clock +
        (resetWaits hf (env.maxRetries - rc) st.httpCount st.clock).sum ∧
      w = qmax0 (hf (st.httpCount + (env.maxRetries - rc)) - st2.clock)) := by
  unfold make_request
  exact aux_429_exhaustion env hs hf hall hvm (env.maxRetries + 1 - rc) st rc
    rfl hrc htk

/-- C6 witness: maxRetries = 1 and every response 429 with header 5; the
call fails with rate limit error 1006 status 429, issues two requests,
and sleeps the two computed waits. -/
theorem dispatch_429_exhausts_retries_witness :
    ∃ w st2, make_request
      ⟨1, false, "v1/accounts", "GET",
        fun _ => ⟨429, none, some "5", none, ""⟩, fun _ => true⟩
      ⟨true, ⟨[], [], 30, 1⟩, ⟨[], [], 20, 1⟩, 0, 0, 0, []⟩ 0 =
      (.error (.rateLimit "1006"
        "Rate limit exceeded. Maximum retry attempts reached." 429 (some w)), st2) ∧
    (((⟨1, false, "v1/accounts", "GET",
        fun _ => ⟨429, none, some "5", none, ""⟩,
        fun _ => true⟩ : Env)).enforceRateLimit = false →
      st2.httpCount = 2 ∧
      st2.sleeps = resetWaits (fun _ => 5) 1 0 0 ∧
      st2.clock = (resetWaits (fun _ => 5) 1 0 0).sum ∧
      w = qmax0 ((5 : ℚ) - st2.clock)) := by
  have h := dispatch_429_exhausts_retries
    ⟨1, false, "v1/accounts", "GET",
      fun _ => ⟨429, none, some "5", none, ""⟩, fun _ => true⟩
    (fun _ => "5") (fun _ => (5 : ℚ))
    (by
      intro i
      refine ⟨rfl, rfl, ?_, ?_⟩
      · show "5" ≠ ""
        decide
      · show parseFloat? "5" = some 5
        decide)
    (by decide)
    ⟨true, ⟨[], [], 30, 1⟩, ⟨[], [], 20, 1⟩, 0, 0, 0, []⟩ 0
    (Nat.zero_le _) rfl
  obtain ⟨w, st2, heq, himp⟩ := h
  exact ⟨w, st2, heq, by simpa using himp⟩

/-! ### Claim C2 -/

/-- C2 counterexample: with the ACCOUNT per-second window saturated by 30
requests at time 10, update_limits(cat, 0, 5) followed by wait_if_needed
at now = 10 returns the local window wait (1), not max(0, 5 - 10) = 0:
the server-reported pair is consulted only when its wait is positive, so
it does not take priority once resetAt has passed. -/
theorem wait_if_needed_expired_reset_cex :
    wait_if_needed (RATE_LIMITS .account)
        (update_limits ⟨List.replicate 30 10, List.replicate 30 10, 30, 11⟩ 0 5) 10 ≠
      qmax0 (5 - 10) := by
  norm_num [wait_if_needed, qmax0, update_limits, RATE_LIMITS, List.replicate_succ]

/-- C2 amended: after update_limits(cat, 0, resetAt), for every
local-window state, wait_if_needed at time now returns exactly
max(0, resetAt - now) whenever now < resetAt, taking priority over the
local sliding windows whether or not they are full; once resetAt ≤ now
the server-reported pair has no effect at all (the result coincides with
that for any other remaining value, i.e. the local sliding windows alone
decide), and in particular the claimed max(0, resetAt - now) equation
still holds then unless a local window is saturated with a fresh oldest
entry. -/
theorem wait_if_needed_server_priority (cfg : RLLimits) (s : RLState)
    (resetAt now : ℚ) :
    (now < resetAt →
      wait_if_needed cfg (update_limits s 0 resetAt) now =
        qmax0 (resetAt - now)) ∧
    (resetAt ≤ now → ∀ r : ℤ,
      wait_if_needed cfg (update_limits s 0 resetAt) now =
        wait_if_needed cfg (update_limits s r resetAt) now) ∧
    (resetAt ≤ now →
      ¬(cfg.secondLimit ≤ s.secondHist.length ∧
        0 < qmax0 (1 - (now - s.secondHist.headD 0))) →
      ¬(cfg.hourLimit ≤ s.hourHist.length ∧
        0 < qmax0 (3600 - (now - s.hourHist.headD 0))) →
      wait_if_needed cfg (update_limits s 0 resetAt) now =
        qmax0 (resetAt - now)) := by
  refine ⟨?_, ?_, ?_⟩
  · intro h
    have hq : qmax0 (resetAt - now) = resetAt - now := by
      unfold qmax0
      rw [if_neg (by linarith)]
    unfold wait_if_needed update_limits
    simp only
    rw [if_pos ⟨le_refl 0, by rw [hq]; linarith⟩]
  · intro h r
    have hq : qmax0 (resetAt - now) = 0 := by
      unfold qmax0
      rcases lt_or_eq_of_le (by linarith : resetAt - now ≤ 0) with h0 | h0
      · rw [if_pos h0]
      · rw [h0]
        simp
    have c1 : ¬((0 : ℤ) ≤ 0 ∧ (0 : ℚ) < 0) :=
      fun hc => absurd hc.2 (lt_irrefl 0)
    have c2 : ¬(r ≤ 0 ∧ (0 : ℚ) < 0) :=
      fun hc => absurd hc.2 (lt_irrefl 0)
    unfold wait_if_needed update_limits
    simp only [hq]
    rw [if_neg c1, if_neg c2]
  · intro h h2 h3
    have hq : qmax0 (resetAt - now) = 0 := by
      unfold qmax0
      rcases lt_or_eq_of_le (by linarith : resetAt - now ≤ 0) with h0 | h0
      · rw [if_pos h0]
      · rw [h0]
        simp
    have c1 : ¬((0 : ℤ) ≤ 0 ∧ (0 : ℚ) < 0) :=
      fun hc => absurd hc.2 (lt_irrefl 0)
    unfold wait_if_needed update_limits
    simp only [hq]
    rw [if_neg c1, if_neg h2, if_neg h3]

/-- C2 witness: with remaining forced to 0, at resetAt = 5 and now = 3
the returned wait is 2 seconds whatever the window state (here a
saturated two-entry window under limits (2, 4)); at now = 10 (reset
expired) the result coincides with the remaining = 42 state, and with
empty windows the max(0, resetAt - now) = 0 equation holds. -/
theorem wait_if_needed_server_priority_witness :
    wait_if_needed ⟨2, 4⟩ ⟨[3, 3], [3, 3], 0, 5⟩ 3 = qmax0 (5 - 3) ∧
    wait_if_needed ⟨30, 30000⟩ ⟨[], [], 0, 5⟩ 10 =
      wait_if_needed ⟨30, 30000⟩ ⟨[], [], 42, 5⟩ 10 ∧
    wait_if_needed ⟨30, 30000⟩ ⟨[], [], 0, 5⟩ 10 = qmax0 (5 - 10) :=
  ⟨(wait_if_needed_server_priority ⟨2, 4⟩ ⟨[3, 3], [3, 3], 9, 0⟩ 5 3).1
      (by norm_num),
    (wait_if_needed_server_priority ⟨30, 30000⟩ ⟨[], [], 9, 0⟩ 5 10).2.1
      (by norm_num) 42,
    (wait_if_needed_server_priority ⟨30, 30000⟩ ⟨[], [], 9, 0⟩ 5 10).2.2
      (by norm_num) (by simp) (by simp)⟩

/-! ### Claim C8 -/

/-- C8: for every category with per-second limit L and server-reported
remaining > 0, recording L requests into empty windows and then calling
wait_if_needed at a time less than one second after the oldest recorded
request returns a wait in (0, 1]; calling it more than one second after
the oldest returns 0. -/
theorem second_window_saturation (c : ApiCategory) (s0 : RLState)
    (ts : List ℚ) (now : ℚ)
    (h1 : s0.secondHist = []) (h2 : s0.hourHist = [])
    (h3 : 0 < s0.remaining)
    (h4 : ts.length = (RATE_LIMITS c).secondLimit) :
    (ts.headD 0 ≤ now → now - ts.headD 0 < 1 →
      0 < wait_if_needed (RATE_LIMITS c) (recordAll (RATE_LIMITS c) s0 ts) now ∧
        wait_if_needed (RATE_LIMITS c) (recordAll (RATE_LIMITS c) s0 ts) now ≤ 1) ∧
    (1 < now - ts.headD 0 →
      wait_if_needed (RATE_LIMITS c) (recordAll (RATE_LIMITS c) s0 ts) now = 0) := by
  set cfg := RATE_LIMITS c with hcfg
  have hsec : (recordAll cfg s0 ts).secondHist = ts := by
    rw [recordAll_secondHist cfg s0 ts (by rw [h1, h4]; simp), h1]; rfl
  have hhour : (recordAll cfg s0 ts).hourHist = ts := by
    have hle : cfg.secondLimit ≤ cfg.hourLimit := by
      cases c <;> simp [hcfg, RATE_LIMITS]
    rw [recordAll_hourHist cfg s0 ts (by rw [h2, h4]; simpa using hle), h2]; rfl
  have hrem : (recordAll cfg s0 ts).remaining = s0.remaining :=
    recordAll_remaining cfg s0 ts
  have hhlt : cfg.secondLimit < cfg.hourLimit := by
    cases c <;> simp [hcfg, RATE_LIMITS]
  have hncond1 : ¬ ((recordAll cfg s0 ts).remaining ≤ 0 ∧
      0 < qmax0 ((recordAll cfg s0 ts).resetTime - now)) := by
    rw [hrem]; intro hc; exact absurd hc.1 (by omega)
  constructor
  · intro ha hb
    have hw : 0 < 1 - (now - ts.headD 0) := by linarith
    have hqe : qmax0 (1 - (now - ts.headD 0)) = 1 - (now - ts.headD 0) := by
      unfold qmax0; rw [if_neg (by linarith)]
    unfold wait_if_needed
    rw [if_neg hncond1, hsec, h4,
      if_pos ⟨le_refl _, by rw [hqe]; linarith⟩, hqe]
    constructor <;> linarith
  · intro hb
    have hqe : qmax0 (1 - (now - ts.headD 0)) = 0 := by
      unfold qmax0; rw [if_pos (by linarith)]
    unfold wait_if_needed
    rw [if_neg hncond1, hsec, h4]
    rw [if_neg (by intro hc; rw [hqe] at hc; exact absurd hc.2 (lt_irrefl 0))]
    rw [if_neg (by rw [hhour, h4]; intro hc; omega)]

/-- C8 witness: ACCOUNT category, 30 requests all recorded at time 0;
wait_if_needed at now = 1/2 returns a positive wait of at most one
second, and at now = 2 returns 0. -/
theorem second_window_saturation_witness :
    (0 < wait_if_needed (RATE_LIMITS .account)
        (recordAll (RATE_LIMITS .account) ⟨[], [], 30, 0⟩ (List.replicate 30 0)) (1/2) ∧
      wait_if_needed (RATE_LIMITS .account)
        (recordAll (RATE_LIMITS .account) ⟨[], [], 30, 0⟩ (List.replicate 30 0)) (1/2) ≤ 1) ∧
    wait_if_needed (RATE_LIMITS .account)
        (recordAll (RATE_LIMITS .account) ⟨[], [], 30, 0⟩ (List.replicate 30 0)) 2 = 0 := by
  have t1 := second_window_saturation .account ⟨[], [], 30, 0⟩
    (List.replicate 30 0) (1/2) rfl rfl (by norm_num) (by simp [RATE_LIMITS])
  have t2 := second_window_saturation .account ⟨[], [], 30, 0⟩
    (List.replicate 30 0) 2 rfl rfl (by norm_num) (by simp [RATE_LIMITS])
  refine ⟨t1.1 ?_ ?_, t2.2 ?_⟩ <;> norm_num [List.replicate_succ]

/-! ### Claim C9 -/

/-- C9: under every sequence of record_request, update_limits and
wait_if_needed calls, the per-second history never exceeds the per-second
limit and the per-hour history never exceeds the per-hour limit; and when
a window is exactly at capacity, recording drops its oldest entry. -/
theorem sliding_window_bounded (cfg : RLLimits) (s0 : RLState)
    (ops : List RLOp)
    (h1 : s0.secondHist.length ≤ cfg.secondLimit)
    (h2 : s0.hourHist.length ≤ cfg.hourLimit) :
    ((applyOps cfg s0 ops).secondHist.length ≤ cfg.secondLimit ∧
      (applyOps cfg s0 ops).hourHist.length ≤ cfg.hourLimit) ∧
    (∀ s : RLState, ∀ t : ℚ, s.secondHist.length = cfg.secondLimit →
      0 < cfg.secondLimit →
      (record_request cfg s t).secondHist = s.secondHist.tail ++ [t]) ∧
    (∀ s : RLState, ∀ t : ℚ, s.hourHist.length = cfg.hourLimit →
      0 < cfg.hourLimit →
      (record_request cfg s t).hourHist = s.hourHist.tail ++ [t]) := by
  refine ⟨?_, ?_, ?_⟩
  · induction ops generalizing s0 with
    | nil => exact ⟨h1, h2⟩
    | cons op ops ih =>
      have hstep : (applyOp cfg s0 op).secondHist.length ≤ cfg.secondLimit ∧
          (applyOp cfg s0 op).hourHist.length ≤ cfg.hourLimit := by
        cases op with
        | record t =>
          exact ⟨dequeAppend_length_le _ _ _, dequeAppend_length_le _ _ _⟩
        | update r ra => exact ⟨h1, h2⟩
        | wait n => exact ⟨h1, h2⟩
      exact ih (applyOp cfg s0 op) hstep.1 hstep.2
  · intro s t hfull hpos
    exact dequeAppend_of_full _ _ _ hfull hpos
  · intro s t hfull hpos
    exact dequeAppend_of_full _ _ _ hfull hpos

/-- C9 witness: a concrete five-call sequence on a limiter with limits
(2, 4) keeps both windows within bounds, and recording into the full
two-entry second window drops the oldest timestamp. -/
theorem sliding_window_bounded_witness :
    ((applyOps ⟨2, 4⟩ ⟨[], [], 2, 0⟩
        [.record 0, .record 1, .update 5 9, .record 2, .wait 3]).secondHist.length ≤ 2 ∧
      (applyOps ⟨2, 4⟩ ⟨[], [], 2, 0⟩
        [.record 0, .record 1, .update 5 9, .record 2, .wait 3]).hourHist.length ≤ 4) ∧
    (record_request ⟨2, 4⟩ ⟨[0, 1], [0, 1], 2, 0⟩ 2).secondHist = [1, 2] := by
  have t1 := sliding_window_bounded ⟨2, 4⟩ ⟨[], [], 2, 0⟩
    [.record 0, .record 1, .update 5 9, .record 2, .wait 3] (by simp) (by simp)
  refine ⟨t1.1, ?_⟩
  have := t1.2.1 ⟨[0, 1], [0, 1], 2, 0⟩ 2 (by simp) (by norm_num)
  simpa using this

/-! ## Chronos (QuestradeAPI/Chronos.py)

The symbol cache/store and the incremental candle cache are embedded
with their SQLite tables as lists of typed rows. Timestamps are
rationals standing for the ISO-8601 strings the source stores: the
source always writes one uniform strftime/isoformat format, for which
lexicographic string comparison (ORDER BY end DESC) agrees with time
order and datetime.fromisoformat round-trips, so the fromisoformat
except branch of get_candles (which would force days_diff = 1) never
fires in the model, and the timezone normalisation of lines 344-356 is
the identity. INSERT OR REPLACE on the candles primary key
(symbol, start, interval) removes every row with the inserted key and
appends the new row; on the symbols table the replacement key is the
symbol_id primary key or the unique symbol column. The remote API is an
oracle giving search_symbols its first match and get_candles its rows,
and every remote call is recorded in a trace. -/

/-- A row of the symbols table / an entry of the in-memory symbol cache,
in the API field format of _db_to_api_format. -/
structure SymbolData where
  symbolId : ℤ
  symbol : String
  description : String
  securityType : String
  listingExchange : String
  isTradable : Bool
  isQuotable : Bool
  currency : String
deriving DecidableEq, Repr

/-- A row of the candles table of market_data.db. -/
structure CandleRow where
  symbol : String
  start : ℚ
  endT : ℚ
  low : ℚ
  high : ℚ
  open_ : ℚ
  close : ℚ
  volume : ℤ
  vwap : Option ℚ
  interval : String
deriving DecidableEq, Repr

/-- One candle of an api.get_candles response. -/
structure ApiCandle where
  start : ℚ
  endT : ℚ
  low : ℚ
  high : ℚ
  open_ : ℚ
  close : ℚ
  volume : ℤ
  vwap : Option ℚ
deriving DecidableEq, Repr

/-- The remote API as seen by Chronos: search_symbols returns the first
symbol of the response, get_candles returns the candle list for
(symbol id, start, end, interval). -/
structure ChronosApi where
  search_symbols : String → SymbolData
  get_candles : ℤ → ℚ → ℚ → String → List ApiCandle

/-- The mutable state of a Chronos instance: the in-memory symbol cache,
the symbols table (with its updated_at column) and the candles table. -/
structure ChronosState where
  symbolCache : List (String × SymbolData)
  symbolDb : List (SymbolData × ℚ)
  candles : List CandleRow
deriving Repr

/-- One remote call made while resolving a request. -/
inductive ApiCall where
  | search (name : String)
  | candles (symbolId : ℤ) (startT endT : ℚ) (interval : String)
deriving DecidableEq, Repr

/-- Dictionary lookup in the in-memory symbol cache (keyed by the
requested name; newest binding wins, as for a Python dict). -/
def cacheLookup (cache : List (String × SymbolData)) (name : String) :
    Option SymbolData :=
  (cache.find? (fun p => p.1 = name)).map (fun p => p.2)

/-- SELECT * FROM symbols WHERE symbol = name, converted by
_db_to_api_format (the updated_at column is dropped). -/
def dbLookup (db : List (SymbolData × ℚ)) (name : String) :
    Option SymbolData :=
  (db.find? (fun p => p.1.symbol = name)).map (fun p => p.1)

/-- INSERT OR REPLACE INTO symbols: replaces any row conflicting on the
symbol_id primary key or the unique symbol column. -/
def upsertSymbol (db : List (SymbolData × ℚ)) (entry : SymbolData × ℚ) :
    List (SymbolData × ℚ) :=
  db.filter (fun p =>
    !(p.1.symbolId = entry.1.symbolId || p.1.symbol = entry.1.symbol)) ++ [entry]

/-- Chronos.get_symbol_info: cache, then database, then remote search
(storing and caching the first match); returns the symbol record, the
new state and the trace of remote calls. -/
def get_symbol_info (api : ChronosApi) (st : ChronosState) (now : ℚ)
    (name : String) : SymbolData × ChronosState × List ApiCall :=
  match cacheLookup st.symbolCache name with
  | some d => (d, st, [])
  | none =>
    match dbLookup st.symbolDb name with
    | some d =>
      (d, { st with symbolCache := (name, d) :: st.symbolCache }, [])
    | none =>
      let d := api.search_symbols name
      (d,
        { st with
          symbolDb := upsertSymbol st.symbolDb (d, now)
          symbolCache := (name, d) :: st.symbolCache },
        [ApiCall.search name])

/-- The composite primary key of the candles table. -/
def candleKey (r : CandleRow) : String × ℚ × String :=
  (r.symbol, r.start, r.interval)

/-- INSERT OR REPLACE INTO candles: remove every row carrying the
inserted key, append the new row. -/
def upsertCandle (store : List CandleRow) (r : CandleRow) : List CandleRow :=
  store.filter (fun q => !(candleKey q = candleKey r)) ++ [r]

/-- The rows a WHERE symbol = ? AND interval = ? query returns. -/
def candlesFor (store : List CandleRow) (symbol interval : String) :
    List CandleRow :=
  store.filter (fun r => r.symbol = symbol && r.interval = interval)

/-- SELECT end ... ORDER BY end DESC LIMIT 1: the maximum end timestamp
of a nonempty row set (the sync cursor). -/
def lastEndOf (rows : List CandleRow) : ℚ :=
  match rows with
  | [] => 0
  | r :: rest => rest.foldl (fun acc q => if acc < q.endT then q.endT else acc) r.endT

/-- Insertion step for ORDER BY start. -/
def insertByStart (r : CandleRow) : List CandleRow → List CandleRow
  | [] => [r]
  | q :: rest =>
    if r.start ≤ q.start then r :: q :: rest else q :: insertByStart r rest

/-- ORDER BY start on the selected rows. -/
def sortByStart (rows : List CandleRow) : List CandleRow :=
  rows.foldr insertByStart []

/-- A fetched candle extended with the symbol and interval columns the
source adds before saving. -/
def mkCandleRow (symbol interval : String) (c : ApiCandle) : CandleRow :=
  ⟨symbol, c.start, c.endT, c.low, c.high, c.open_, c.close, c.volume,
    c.vwap, interval⟩

/-- Chronos.get_candles: resolve the symbol, decide between force
refresh (full days range), no data (full days range), stale data (delta
range starting at the stored cursor string) and fresh data (no fetch);
upsert any fetched candles; return every stored row for the symbol and
interval ordered by start, the new state and the remote call trace.
days_diff is (end_time - last_end).days of the source, i.e. the floor of
the difference in whole days. -/
def Chronos.get_candles (api : ChronosApi) (st : ChronosState) (now : ℚ)
    (symbol : String) (days : Nat) (interval : String) (forceRefresh : Bool) :
    List CandleRow × ChronosState × List ApiCall :=
  let r1 := get_symbol_info api st now symbol
  let sinfo := r1.1
  let st1 := r1.2.1
  let calls1 := r1.2.2
  let existing := candlesFor st1.candles symbol interval
  let fetchStart : Option ℚ :=
    if forceRefresh then some (now - (days : ℚ) * 86400)
    else if 0 < existing.length then
      let lastEnd := lastEndOf existing
      let daysDiff : ℤ := ⌊(now - lastEnd) / 86400⌋
      if 0 < daysDiff then some lastEnd else none
    else some (now - (days : ℚ) * 86400)
  match fetchStart with
  | none => (sortByStart existing, st1, calls1)
  | some startT =>
    let fetched := api.get_candles sinfo.symbolId startT now interval
    let newCandles :=
      fetched.foldl
        (fun acc c => upsertCandle acc (mkCandleRow symbol interval c))
        st1.candles
    let st2 := { st1 with candles := newCandles }
    (sortByStart (candlesFor st2.candles symbol interval), st2,
      calls1 ++ [ApiCall.candles sinfo.symbolId startT now interval])

/-! ### Chronos lemmas -/

/-- Python timedelta days positivity: (end_time - last_end).days is
positive exactly when the difference reaches one whole day. -/
theorem daysDiff_pos_iff (x : ℚ) : 0 < ⌊x / 86400⌋ ↔ 86400 ≤ x := by
  rw [Int.lt_iff_add_one_le, zero_add, Int.le_floor]
  push_cast
  rw [le_div_iff₀ (by norm_num : (0:ℚ) < 86400)]
  rw [one_mul]

/-- A symbol present in the in-memory cache or in the symbol store is
resolved with no remote call and without touching the candle table. -/
theorem symbol_info_local (api : ChronosApi) (st : ChronosState) (now : ℚ)
    (symbol : String)
    (hsym : (cacheLookup st.symbolCache symbol).isSome ∨
      (dbLookup st.symbolDb symbol).isSome) :
    (get_symbol_info api st now symbol).2.2 = [] ∧
    (get_symbol_info api st now symbol).2.1.candles = st.candles := by
  unfold get_symbol_info
  cases hc : cacheLookup st.symbolCache symbol with
  | some d => exact ⟨rfl, rfl⟩
  | none =>
    cases hd : dbLookup st.symbolDb symbol with
    | some d => exact ⟨rfl, rfl⟩
    | none =>
      rw [hc, hd] at hsym
      rcases hsym with h | h <;> simp at h

/-! ### Claim C3 -/

/-- C3: when the symbol is present locally (cache or store), candle data
exists for (symbol, interval), the cursor is within one day of now and
no force refresh is requested, both the symbol resolution and the candle
resolution perform zero remote calls, the candle table is unchanged and
the returned rows are exactly the stored rows ordered by start. -/
theorem fresh_cache_no_remote (api : ChronosApi) (st : ChronosState)
    (now : ℚ) (symbol : String) (days : Nat) (interval : String)
    (hsym : (cacheLookup st.symbolCache symbol).isSome ∨
      (dbLookup st.symbolDb symbol).isSome)
    (hdata : 0 < (candlesFor st.candles symbol interval).length)
    (hfresh : now - lastEndOf (candlesFor st.candles symbol interval) < 86400) :
    (get_symbol_info api st now symbol).2.2 = [] ∧
    (Chronos.get_candles api st now symbol days interval false).2.2 = [] ∧
    (Chronos.get_candles api st now symbol days interval false).1 =
      sortByStart (candlesFor st.candles symbol interval) ∧
    (Chronos.get_candles api st now symbol days interval false).2.1.candles =
      st.candles := by
  obtain ⟨h1, h2⟩ := symbol_info_local api st now symbol hsym
  have hstale : ¬ (0 : ℤ) <
      ⌊(now - lastEndOf (candlesFor st.candles symbol interval)) / 86400⌋ := by
    rw [daysDiff_pos_iff]
    linarith
  refine ⟨h1, ?_⟩
  unfold Chronos.get_candles
  simp only [h2, Bool.false_eq_true, if_false, hdata, if_pos, ite_true,
    hstale, ite_false]
  exact ⟨h1, trivial, trivial⟩

/-- C3 witness: symbol X cached, one stored OneDay candle ending at 10,
now = 100 (well within one day): no remote calls, unchanged table, the
stored rows returned. -/
theorem fresh_cache_no_remote_witness :
    (get_symbol_info
      ⟨fun _ => ⟨1, "X", "", "", "", true, true, "USD"⟩, fun _ _ _ _ => []⟩
      ⟨[("X", ⟨1, "X", "", "", "", true, true, "USD"⟩)], [],
        [⟨"X", 0, 10, 5, 6, 5, 6, 100, none, "OneDay"⟩]⟩ 100 "X").2.2 = [] ∧
    (Chronos.get_candles
      ⟨fun _ => ⟨1, "X", "", "", "", true, true, "USD"⟩, fun _ _ _ _ => []⟩
      ⟨[("X", ⟨1, "X", "", "", "", true, true, "USD"⟩)], [],
        [⟨"X", 0, 10, 5, 6, 5, 6, 100, none, "OneDay"⟩]⟩ 100 "X" 90 "OneDay"
      false).2.2 = [] ∧
    (Chronos.get_candles
      ⟨fun _ => ⟨1, "X", "", "", "", true, true, "USD"⟩, fun _ _ _ _ => []⟩
      ⟨[("X", ⟨1, "X", "", "", "", true, true, "USD"⟩)], [],
        [⟨"X", 0, 10, 5, 6, 5, 6, 100, none, "OneDay"⟩]⟩ 100 "X" 90 "OneDay"
      false).1 =
      sortByStart (candlesFor [⟨"X", 0, 10, 5, 6, 5, 6, 100, none, "OneDay"⟩]
        "X" "OneDay") ∧
    (Chronos.get_candles
      ⟨fun _ => ⟨1, "X", "", "", "", true, true, "USD"⟩, fun _ _ _ _ => []⟩
      ⟨[("X", ⟨1, "X", "", "", "", true, true, "USD"⟩)], [],
        [⟨"X", 0, 10, 5, 6, 5, 6, 100, none, "OneDay"⟩]⟩ 100 "X" 90 "OneDay"
      false).2.1.candles = [⟨"X", 0, 10, 5, 6, 5, 6, 100, none, "OneDay"⟩] :=
  fresh_cache_no_remote
    ⟨fun _ => ⟨1, "X", "", "", "", true, true, "USD"⟩, fun _ _ _ _ => []⟩
    ⟨[("X", ⟨1, "X", "", "", "", true, true, "USD"⟩)], [],
      [⟨"X", 0, 10, 5, 6, 5, 6, 100, none, "OneDay"⟩]⟩ 100 "X" 90 "OneDay"
    (Or.inl (by decide)) (by decide)
    (by show (100 : ℚ) - 10 < 86400; norm_num)

/-! ### Claim C4 -/

/-- C4: when the symbol is cached, candle data exists for the pair and
the cursor is at least one day old (no force refresh), the engine issues
exactly one remote candle fetch whose start bound is the stored cursor
(the maximum end timestamp) and whose end bound is now — not the full
requested days range. -/
theorem stale_fetch_delta (api : ChronosApi) (st : ChronosState) (now : ℚ)
    (symbol : String) (days : Nat) (interval : String) (d : SymbolData)
    (hs : cacheLookup st.symbolCache symbol = some d)
    (hdata : 0 < (candlesFor st.candles symbol interval).length)
    (hstale : 86400 ≤ now - lastEndOf (candlesFor st.candles symbol interval)) :
    (Chronos.get_candles api st now symbol days interval false).2.2 =
      [ApiCall.candles d.symbolId
        (lastEndOf (candlesFor st.candles symbol interval)) now interval] := by
  have hsi : get_symbol_info api st now symbol = (d, st, []) := by
    unfold get_symbol_info
    rw [hs]
  have hpos : (0 : ℤ) <
      ⌊(now - lastEndOf (candlesFor st.candles symbol interval)) / 86400⌋ := by
    rw [daysDiff_pos_iff]
    exact hstale
  unfold Chronos.get_candles
  simp only [hsi, Bool.false_eq_true, if_false, hdata, if_pos, ite_true,
    hpos, List.nil_append]

/-- C4 witness: cursor at 10, now = 200000 (more than two days later,
threshold one day): the single fetch starts exactly at the cursor and
ends at now. -/
theorem stale_fetch_delta_witness :
    (Chronos.get_candles
      ⟨fun _ => ⟨1, "X", "", "", "", true, true, "USD"⟩, fun _ _ _ _ => []⟩
      ⟨[("X", ⟨1, "X", "", "", "", true, true, "USD"⟩)], [],
        [⟨"X", 0, 10, 5, 6, 5, 6, 100, none, "OneDay"⟩]⟩ 200000 "X" 90
      "OneDay" false).2.2 =
      [ApiCall.candles 1
        (lastEndOf (candlesFor [⟨"X", 0, 10, 5, 6, 5, 6, 100, none, "OneDay"⟩]
          "X" "OneDay")) 200000 "OneDay"] :=
  stale_fetch_delta
    ⟨fun _ => ⟨1, "X", "", "", "", true, true, "USD"⟩, fun _ _ _ _ => []⟩
    ⟨[("X", ⟨1, "X", "", "", "", true, true, "USD"⟩)], [],
      [⟨"X", 0, 10, 5, 6, 5, 6, 100, none, "OneDay"⟩]⟩ 200000 "X" 90 "OneDay"
    ⟨1, "X", "", "", "", true, true, "USD"⟩ (by decide) (by decide)
    (by show (86400 : ℚ) ≤ 200000 - 10; norm_num)

/-! ### Claim C5 -/

/-- The rows of the candle table carrying one composite key. -/
def rowsWithKey (store : List CandleRow) (k : String × ℚ × String) :
    List CandleRow :=
  store.filter (fun q => candleKey q = k)

theorem rowsWithKey_upsert_self (s : List CandleRow) (r : CandleRow) :
    rowsWithKey (upsertCandle s r) (candleKey r) = [r] := by
  unfold rowsWithKey upsertCandle
  rw [List.filter_append]
  have h1 : (s.filter (fun q => !(candleKey q = candleKey r))).filter
      (fun q => candleKey q = candleKey r) = [] := by
    rw [List.filter_filter]
    apply List.filter_eq_nil_iff.mpr
    intro a _
    by_cases hk : candleKey a = candleKey r <;> simp [hk]
  rw [h1]
  simp

theorem filter_and_length_le (p q : CandleRow → Bool) (s : List CandleRow) :
    (s.filter (fun a => p a && q a)).length ≤ (s.filter p).length := by
  induction s with
  | nil => simp
  | cons a t ih =>
    simp only [List.filter_cons]
    cases hp : p a <;> cases hq : q a <;> simp [hp, hq] <;> omega

theorem rowsWithKey_upsert_le (s : List CandleRow) (r : CandleRow)
    (k : String × ℚ × String) (h : (rowsWithKey s k).length ≤ 1) :
    (rowsWithKey (upsertCandle s r) k).length ≤ 1 := by
  by_cases hk : k = candleKey r
  · rw [hk, rowsWithKey_upsert_self]
    simp
  · unfold rowsWithKey upsertCandle
    rw [List.filter_append]
    have hkr : ¬ candleKey r = k := fun h0 => hk h0.symm
    have h2 : List.filter (fun q => decide (candleKey q = k)) [r] = [] := by
      simp [hkr]
    rw [h2, List.append_nil, List.filter_filter]
    calc (s.filter (fun a => decide (candleKey a = k) &&
            !decide (candleKey a = candleKey r))).length
        ≤ (s.filter (fun a => decide (candleKey a = k))).length :=
          filter_and_length_le _ _ s
      _ ≤ 1 := h

/-- C5: writing two candles with the same composite key leaves the store
with exactly one row for that key, carrying the values of the later
write, whatever rows the store already held; and batch-upserting any
candle list into a store with unique keys never produces a duplicate
key. -/
theorem candle_upsert_idempotent (store : List CandleRow) (r1 r2 : CandleRow)
    (hkey : candleKey r1 = candleKey r2) :
    rowsWithKey (upsertCandle (upsertCandle store r1) r2) (candleKey r1) =
      [r2] ∧
    (∀ (store2 : List CandleRow) (rows : List CandleRow),
      (∀ k, (rowsWithKey store2 k).length ≤ 1) →
      ∀ k, (rowsWithKey (rows.foldl upsertCandle store2) k).length ≤ 1) := by
  constructor
  · rw [hkey]
    exact rowsWithKey_upsert_self _ r2
  · intro store2 rows
    induction rows generalizing store2 with
    | nil => intro h k; exact h k
    | cons r rows ih =>
      intro h k
      exact ih (upsertCandle store2 r)
        (fun k2 => rowsWithKey_upsert_le _ _ _ (h k2)) k

/-- C5 witness: two writes with key (X, 0, OneDay) and different values
over a one-row store leave exactly the later row for that key, and a
two-row batch folded into an empty store keeps every key unique. -/
theorem candle_upsert_idempotent_witness :
    rowsWithKey
        (upsertCandle
          (upsertCandle
            [⟨"X", 0, 1, 5, 6, 5, 6, 100, none, "OneDay"⟩]
            ⟨"X", 0, 1, 5, 7, 5, 7, 200, none, "OneDay"⟩)
          ⟨"X", 0, 1, 5, 8, 5, 8, 300, none, "OneDay"⟩)
        (candleKey ⟨"X", 0, 1, 5, 7, 5, 7, 200, none, "OneDay"⟩) =
      [⟨"X", 0, 1, 5, 8, 5, 8, 300, none, "OneDay"⟩] ∧
    ∀ k, (rowsWithKey
        ([⟨"X", 0, 1, 5, 8, 5, 8, 300, none, "OneDay"⟩,
          ⟨"X", 2, 3, 5, 8, 5, 8, 300, none, "OneDay"⟩].foldl upsertCandle
          []) k).length ≤ 1 := by
  have h := candle_upsert_idempotent
    [⟨"X", 0, 1, 5, 6, 5, 6, 100, none, "OneDay"⟩]
    ⟨"X", 0, 1, 5, 7, 5, 7, 200, none, "OneDay"⟩
    ⟨"X", 0, 1, 5, 8, 5, 8, 300, none, "OneDay"⟩
    rfl
  exact ⟨h.1, h.2 [] _ (fun k => by simp [rowsWithKey])⟩

end Questrade
